import Mathlib

/-!
Verification of the windows-updater module (njooma/windows_autoupdate).

The development shallowly embeds the update orchestration engine of the
repository: archive extraction (`unzipUpdate`), installer discovery
(`findInstaller`), the registry-driven uninstall matcher
(`uninstallExistingInstallation`), the change detector
(`updateHasChanged`) and the triggered orchestration run (`DoCommand`).
Definitions follow the latest revision of `models/module.go` (the
revision with `force_install`, `abort_on_uninstall_errors` and the
cache-details store), which the repository treats as the canonical
design; the one place a claim targets an earlier revision's code is the
uninstall command construction (`uninstallExecArgs`), noted at its
definition.

Filesystem paths are modelled at the component level: a Go path string
such as `tmp/u.zip` is the component list `["tmp", "u.zip"]`.
`filepath.Clean` / the cleaning done by `filepath.Join` is `cleanComps`;
string-prefix checks against `Clean(dest) + separator` coincide with
component-list strict-prefix checks because components contain no
separator.  The filesystem itself is an ordered list of entries (path
plus directory flag); external effects (the HTTP download, registry
reads, subprocess execution) enter as explicit oracle inputs.
-/

namespace WinUpdater

/-- A filesystem path as its list of components. -/
abbrev GoPath := List String

/-- `filepath.Clean` at the component level: drops empty and `.`
components and resolves `..` against the accumulated prefix (paths are
taken as rooted, so a leading `..` vanishes, as `Clean` does for
absolute paths). -/
def cleanComps (cs : GoPath) : GoPath :=
  cs.foldl (fun acc c =>
    if c = "" ∨ c = "." then acc
    else if c = ".." then acc.dropLast
    else acc ++ [c]) []

/-- `filepath.Join`: concatenate then clean. -/
def joinPath (base : GoPath) (rel : GoPath) : GoPath :=
  cleanComps (base ++ rel)

/-- One filesystem node: its (cleaned) path and whether it is a directory. -/
structure FsEntry where
  path : GoPath
  isDir : Bool
deriving DecidableEq, Repr

/-- The filesystem as an ordered list of nodes. -/
abbrev FS := List FsEntry

/-- `os.RemoveAll p`: delete the node at `p` and everything below it. -/
def removeAll (p : GoPath) (fs : FS) : FS :=
  fs.filter (fun e => ¬ (cleanComps p <+: e.path))

/-- `os.Remove p`: delete the single node at `p`. -/
def removeFile (p : GoPath) (fs : FS) : FS :=
  fs.filter (fun e => e.path ≠ cleanComps p)

/-- `os.Stat p`: the node at `p`, if present. -/
def statFs (p : GoPath) (fs : FS) : Option FsEntry :=
  fs.find? (fun e => e.path = cleanComps p)

/-- All nonempty prefixes of a path, shortest first. -/
def nonemptyPrefixes (p : GoPath) : List GoPath :=
  (List.range p.length).map (fun i => p.take (i + 1))

/-- Add a directory node if no node already sits at that path. -/
def addDirIfAbsent (fs : FS) (p : GoPath) : FS :=
  if fs.any (fun e => e.path = p) then fs else fs ++ [⟨p, true⟩]

/-- `os.MkdirAll p`: create the directory at `p` and all missing ancestors. -/
def mkdirAll (p : GoPath) (fs : FS) : FS :=
  (nonemptyPrefixes (cleanComps p)).foldl addDirIfAbsent fs

/-- `os.OpenFile p O_WRONLY|O_CREATE|O_TRUNC`: create the file node at `p`
(truncating an existing file keeps its node). -/
def addFile (p : GoPath) (fs : FS) : FS :=
  if fs.any (fun e => e.path = cleanComps p) then fs
  else fs ++ [⟨cleanComps p, false⟩]

/-- `path.Ext`: the suffix of a name starting at its final dot, empty if
the name has no dot. -/
def pathExt (s : String) : String :=
  let r := s.data.reverse
  let afterDot := r.takeWhile (fun c => c ≠ '.')
  if afterDot.length = r.length then "" else ⟨'.' :: afterDot.reverse⟩

/-- `strings.TrimSuffix(src, path.Ext(src))` on the last component of a
path: the path with the final component's extension stripped. -/
def trimExtSuffix (p : GoPath) : GoPath :=
  match p with
  | [] => []
  | _ =>
    let last := p.getLastD ""
    p.dropLast ++ [⟨last.data.take (last.data.length - (pathExt last).data.length)⟩]

/-- `strings.TrimSpace`. -/
def trimSpace (s : String) : String :=
  ⟨((s.data.dropWhile Char.isWhitespace).reverse.dropWhile Char.isWhitespace).reverse⟩

/-- The double-quote character. -/
def dquote : Char := Char.ofNat 34

/-- `strings.ReplaceAll(s, quote, empty)`: drop every double-quote
character. -/
def stripQuotes (s : String) : String :=
  ⟨s.data.filter (fun c => c ≠ dquote)⟩

/-- Substring scan used for `strings.Contains`. -/
def containsSubAux (needle : List Char) : List Char → Bool
  | [] => needle.isEmpty
  | c :: rest => needle.isPrefixOf (c :: rest) || containsSubAux needle rest

/-- `strings.Contains(hay, needle)`. -/
def containsSub (hay needle : String) : Bool :=
  containsSubAux needle.data hay.data

/-! ### Archive extraction (`unzipUpdate`) -/

/-- One zip entry: its declared name (as path components, which may
include `..`), whether it is a directory entry, and oracles for the two
I/O failure points of `extractAndWriteFile` (`f.Open()`, and the
`os.OpenFile`/`io.Copy` pair for file entries). -/
structure ZipEntry where
  name : GoPath
  entryIsDir : Bool
  openFails : Bool
  writeFails : Bool
deriving DecidableEq, Repr

/-- The zip-slip acceptance check of `unzipUpdate`:
`strings.HasPrefix(p, filepath.Clean(dest)+string(os.PathSeparator))`
where `p = filepath.Join(dest, f.Name)`, i.e. the cleaned target is a
strict extension of the cleaned destination. -/
def slipCheck (dest : GoPath) (name : GoPath) : Bool :=
  (cleanComps dest).isPrefixOf (joinPath dest name) &&
    joinPath dest name ≠ cleanComps dest

/-- The body of `extractAndWriteFile` in `unzipUpdate`: process one
entry, returning the filesystem and an error if extraction aborted.
Every failing branch runs `os.RemoveAll(dest)` before returning, as in
the source. -/
def extractAndWriteFile (dest : GoPath) (fs : FS) (f : ZipEntry) :
    FS × Option String :=
  if f.openFails then (removeAll dest fs, some "open error")
  else
    let p := joinPath dest f.name
    if ¬ slipCheck dest f.name then
      (removeAll dest fs, some "illegal file path")
    else if f.entryIsDir then (mkdirAll p fs, none)
    else
      let fs1 := mkdirAll p.dropLast fs
      if f.writeFails then (removeAll dest fs1, some "write error")
      else (addFile p fs1, none)

/-- The entry loop of `unzipUpdate`: abort on the first failing entry. -/
def unzipLoop (dest : GoPath) (fs : FS) : List ZipEntry → FS × Option String
  | [] => (fs, none)
  | f :: rest =>
    match extractAndWriteFile dest fs f with
    | (fs1, none) => unzipLoop dest fs1 rest
    | (fs1, some e) => (fs1, some e)

/-- `unzipUpdate(src, dest)`: open the archive (its content and open
failure are oracle inputs), create the destination directory, then
extract entry by entry. -/
def unzipUpdate (srcOpenFails : Bool) (entries : List ZipEntry)
    (dest : GoPath) (fs : FS) : FS × Option String :=
  if srcOpenFails then (fs, some "zip open error")
  else unzipLoop dest (mkdirAll dest fs) entries

/-! ### Installer discovery (`findInstaller`) -/

/-- Byte-wise lexicographic comparison of names, as `os.ReadDir` sorts
its result by filename. -/
def strLtAux : List Char → List Char → Bool
  | [], [] => false
  | [], _ :: _ => true
  | _ :: _, [] => false
  | a :: as, b :: bs =>
    if a.val < b.val then true else if b.val < a.val then false else strLtAux as bs

/-- Name ordering for directory listings. -/
def strLt (a b : String) : Bool := strLtAux a.data b.data

/-- Insertion step of the listing sort. -/
def insertStr (s : String) : List String → List String
  | [] => [s]
  | x :: xs => if strLt x s then x :: insertStr s xs else s :: x :: xs

/-- Insertion sort of names. -/
def sortStrs : List String → List String
  | [] => []
  | x :: xs => insertStr x (sortStrs xs)

/-- `os.ReadDir p`: the names of the immediate children of `p`, sorted
by filename. -/
def readDir (p : GoPath) (fs : FS) : List String :=
  sortStrs ((fs.filter (fun e =>
      e.path.length = (cleanComps p).length + 1 ∧ cleanComps p <+: e.path)).map
    (fun e => e.path.getLastD ""))

/-- The recognized installer extensions of `findInstaller`. -/
def installerExtensions : List String := [".exe", ".msi", ".bat"]

/-- The configuration of the updater (latest revision: all eight
attributes).  `installerPath` is kept as path components; the empty list
is the Go empty string. -/
structure Config where
  downloadURL : String
  downloadDestination : String
  installerPath : GoPath
  installArgs : List String
  registryLookupKey : String
  registryLookupValue : String
  abortOnUninstallErrors : Bool
  forceInstall : Bool
deriving Repr

deriving instance DecidableEq for Except

/-- `findInstaller(src)`: unzip a `.zip` payload into a sibling
directory named by stripping the extension, then locate the installer —
the configured `installer_path` if set, otherwise the first immediate
child of the directory with a recognized extension, otherwise the
payload itself when it is a flat file with a recognized extension.
Returns the new filesystem and either an error or the pair
(installer path, directory to clean up, `[]` for the flat case). -/
def findInstaller (cfg : Config) (archive : List ZipEntry) (archiveOpenFails : Bool)
    (fs : FS) (src : GoPath) : FS × Except String (GoPath × GoPath) :=
  let unzipped : FS × Except String GoPath :=
    if pathExt (src.getLastD "") = ".zip" then
      let dest := trimExtSuffix src
      match unzipUpdate archiveOpenFails archive dest fs with
      | (fs1, some e) => (removeAll dest fs1, .error e)
      | (fs1, none) => (fs1, .ok dest)
    else (fs, .ok src)
  match unzipped with
  | (fs1, .error e) => (fs1, .error e)
  | (fs1, .ok src1) =>
    match statFs src1 fs1 with
    | none => (fs1, .error "stat error")
    | some d =>
      if d.isDir then
        if cfg.installerPath ≠ [] then
          match statFs (joinPath src1 cfg.installerPath) fs1 with
          | none => (removeAll src1 fs1, .error "could not find installer at configured path")
          | some _ => (fs1, .ok (joinPath src1 cfg.installerPath, src1))
        else
          match (readDir src1 fs1).find?
              (fun nm => installerExtensions.contains (pathExt nm)) with
          | some nm => (fs1, .ok (joinPath src1 [nm], src1))
          | none => (fs1, .error "could not find a file that resembles an installer")
      else
        if installerExtensions.contains (pathExt (src1.getLastD "")) then
          (fs1, .ok (src1, []))
        else (fs1, .error "could not find a file that resembles an installer")

/-! ### Uninstall matcher (`uninstallExistingInstallation`) -/

/-- One registry subkey under an uninstall root: its string values and
an oracle for `registry.OpenKey` failing on it. -/
structure RegSubkey where
  subName : String
  openFails : Bool
  values : List (String × String)
deriving DecidableEq, Repr

/-- One uninstall registry root: oracles for `OpenKey` and
`ReadSubKeyNames` failing, and its subkeys in enumeration order. -/
structure RegRoot where
  openFails : Bool
  readSubkeysFails : Bool
  subkeys : List RegSubkey
deriving DecidableEq, Repr

/-- `sk.GetStringValue(name)`: error (`none`) when the value is absent. -/
def getStringValue (sk : RegSubkey) (name : String) : Option String :=
  (sk.values.find? (fun kv => kv.1 = name)).map (fun kv => kv.2)

/-- The command-string resolution of a matching subkey: prefer
`QuietUninstallString`, fall back to `UninstallString` when the quiet
one cannot be read or is blank after trimming; `none` when no command
can be read at all. -/
def resolveUninstallScript (sk : RegSubkey) : Option String :=
  match getStringValue sk "QuietUninstallString" with
  | some q =>
    if (trimSpace q).length = 0 then getStringValue sk "UninstallString" else some q
  | none => getStringValue sk "UninstallString"

/-- Latest revision: append a quiet flag for MsiExec commands and wrap
in a shell invocation (`fmt.Sprintf("cmd /C %s", script)`). -/
def buildUninstallCommand (script : String) : String :=
  let script1 := if containsSub script "MsiExec.exe" then script ++ " /quiet" else script
  "cmd /C " ++ script1

/-- Accumulator of the uninstall enumeration: the success counter, the
collected failure messages, and a ghost trace of the shell commands
handed to `exec.Command` (recording that effect). -/
structure ScanState where
  uninstallCount : Nat
  errs : List String
  trace : List String
deriving DecidableEq, Repr

/-- The per-subkey body of the uninstall loop: skip unopenable subkeys
and non-matches; on a match, resolve the command string (recording a
failure and continuing when none resolves) and execute it, counting a
success or recording a failure. -/
def procSubkey (cfg : Config) (exec : String → Option String)
    (st : ScanState) (sk : RegSubkey) : ScanState :=
  if sk.openFails then st
  else
    match getStringValue sk cfg.registryLookupKey with
    | none => st
    | some v =>
      if v = cfg.registryLookupValue then
        match resolveUninstallScript sk with
        | none => { st with errs := st.errs ++ ["could not find uninstall command"] }
        | some script =>
          let fullCommand := buildUninstallCommand script
          match exec fullCommand with
          | some output =>
            { st with
              errs := st.errs ++ ["encountered error uninstalling program: " ++ output],
              trace := st.trace ++ [fullCommand] }
          | none =>
            { st with uninstallCount := st.uninstallCount + 1,
                      trace := st.trace ++ [fullCommand] }
      else st

/-- The per-root body: unopenable or unlistable roots are skipped. -/
def processRoot (cfg : Config) (exec : String → Option String)
    (st : ScanState) (root : RegRoot) : ScanState :=
  if root.openFails then st
  else if root.readSubkeysFails then st
  else root.subkeys.foldl (procSubkey cfg exec) st

/-- The two uninstall registry roots enumerated by the matcher. -/
def uninstallKeys : List String :=
  ["SOFTWARE\\Microsoft\\Windows\\CurrentVersion\\Uninstall",
   "SOFTWARE\\WOW6432Node\\Microsoft\\Windows\\CurrentVersion\\Uninstall"]

/-- The full enumeration over both roots.  The registry content at each
root name and the result of executing each shell command are oracle
inputs (`exec c = none` is success, `some output` a failure with that
combined output). -/
def uninstallScan (cfg : Config) (reg : String → RegRoot)
    (exec : String → Option String) : ScanState :=
  uninstallKeys.foldl (fun st key => processRoot cfg exec st (reg key)) ⟨0, [], []⟩

/-- `uninstallExistingInstallation`: skip when either lookup field is
blank; otherwise enumerate, then report success when at least one
uninstall succeeded, the aggregated error when none succeeded and some
failure was recorded, and success (installation not found) otherwise. -/
def uninstallExistingInstallation (cfg : Config) (reg : String → RegRoot)
    (exec : String → Option String) : Option String :=
  if (trimSpace cfg.registryLookupKey).length = 0 then none
  else if (trimSpace cfg.registryLookupValue).length = 0 then none
  else
    let st := uninstallScan cfg reg exec
    if st.uninstallCount > 0 then none
    else if st.errs.length > 0 then
      some ("encountered errors uninstalling programs: " ++ String.intercalate "; " st.errs)
    else none

/-- The argument vector handed to `exec.Command` for a matched
uninstall entry in the earlier revisions of the module
(`exec.Command("cmd", "/C", strings.ReplaceAll(script, quote, empty))`):
the registry-supplied string with every double quote removed, run as
`cmd /C`. -/
def uninstallExecArgs (script : String) : List String :=
  ["cmd", "/C", stripQuotes script]

/-! ### Change detection (`updateHasChanged`) -/

/-- The persisted cache record. -/
structure CacheDetails where
  downloadURL : String
  contentLength : Int
  etag : String
  installed : Bool
deriving Repr

/-- The outcome of the HEAD probe when it returns OK status. -/
structure HeadResult where
  contentLength : Int
  etag : String
deriving Repr

/-- `updateHasChanged`: force flag, then URL change, then probe failure
(`head = none` models an error or non-OK status), then content length,
then etag, then the not-yet-installed flag; otherwise no change. -/
def updateHasChanged (cfg : Config) (cache : CacheDetails)
    (head : Option HeadResult) : Bool :=
  if cfg.forceInstall then true
  else if cache.downloadURL ≠ cfg.downloadURL then true
  else
    match head with
    | none => true
    | some h =>
      if h.contentLength ≠ cache.contentLength then true
      else if h.etag ≠ cache.etag then true
      else if ¬ cache.installed then true
      else false

/-! ### Orchestration (`DoCommand`) -/

/-- `installUpdate(installer)`: run the installer through the shell with
the configured arguments appended; the execution outcome is an oracle. -/
def installUpdate (cfg : Config) (execInstall : GoPath → List String → Option String)
    (installer : GoPath) : Option String :=
  match execInstall installer cfg.installArgs with
  | some output => some ("encountered error installing program: " ++ output)
  | none => none

/-- The environment of one orchestration run: the configuration, the
filesystem, and the oracle outcomes of the external collaborators
(download result, archive content, registry content, subprocess
execution). -/
structure Env where
  cfg : Config
  fs : FS
  downloadResult : Except String GoPath
  archive : List ZipEntry
  archiveOpenFails : Bool
  reg : String → RegRoot
  execShell : String → Option String
  execInstall : GoPath → List String → Option String

/-- The observable outcome of a run: the final filesystem, whether the
install step was invoked, and the returned (map, error) pair. -/
structure RunResult where
  fs : FS
  installRan : Bool
  retMap : Option (List (String × String))
  retErr : Option String

/-- The deferred cleanup of `DoCommand` once an installer was located:
`os.RemoveAll` of the directory (or of the flat installer), then
`os.Remove` of the downloaded file. -/
def cleanupLocated (update installer dir : GoPath) (fs : FS) : FS :=
  removeFile update (if dir ≠ [] then removeAll dir fs else removeAll installer fs)

/-- `DoCommand`: download (oracle), locate the installer (removing the
download on failure), uninstall any existing installation (aborting
only when `abort_on_uninstall_errors` is set), then install; every exit
after locating runs the deferred cleanup.  The command map argument is
never consulted. -/
def DoCommand (env : Env) (cmd : Option (List (String × String))) : RunResult :=
  match env.downloadResult with
  | .error e => ⟨env.fs, false, none, some e⟩
  | .ok update =>
    let fs0 := addFile update env.fs
    let fr := findInstaller env.cfg env.archive env.archiveOpenFails fs0 update
    match fr.2 with
    | .error e => ⟨removeFile update fr.1, false, none, some e⟩
    | .ok (installer, dir) =>
      match uninstallExistingInstallation env.cfg env.reg env.execShell with
      | some e =>
        if env.cfg.abortOnUninstallErrors then
          ⟨cleanupLocated update installer dir fr.1, false, none, some e⟩
        else
          match installUpdate env.cfg env.execInstall installer with
          | some ie => ⟨cleanupLocated update installer dir fr.1, true, none, some ie⟩
          | none => ⟨cleanupLocated update installer dir fr.1, true, none, none⟩
      | none =>
        match installUpdate env.cfg env.execInstall installer with
        | some ie => ⟨cleanupLocated update installer dir fr.1, true, none, some ie⟩
        | none => ⟨cleanupLocated update installer dir fr.1, true, none, none⟩

/-! ### Lemmas about extraction -/

lemma mem_removeAll {p : GoPath} {fs : FS} {x : FsEntry} (h : x ∈ removeAll p fs) :
    x ∈ fs ∧ ¬ (cleanComps p <+: x.path) := by
  unfold removeAll at h
  rw [List.mem_filter] at h
  exact ⟨h.1, by simpa using h.2⟩

lemma extract_err_not_under (dest : GoPath) (fs : FS) (f : ZipEntry)
    (h : (extractAndWriteFile dest fs f).2 ≠ none) :
    ∀ x ∈ (extractAndWriteFile dest fs f).1, ¬ (cleanComps dest <+: x.path) := by
  intro x hx
  simp only [extractAndWriteFile] at h hx
  split_ifs at h hx <;>
    first
      | exact (mem_removeAll hx).2
      | exact absurd rfl h

lemma extract_fail_ne_none (dest : GoPath) (fs : FS) (f : ZipEntry)
    (hf : ¬ (cleanComps dest <+: joinPath dest f.name) ∨ f.openFails = true ∨
          (f.entryIsDir = false ∧ f.writeFails = true)) :
    (extractAndWriteFile dest fs f).2 ≠ none := by
  simp only [extractAndWriteFile]
  rcases hf with hf | hf | ⟨hd, hw⟩
  · have hpre : (cleanComps dest).isPrefixOf (joinPath dest f.name) = false := by
      rw [Bool.eq_false_iff]
      intro hp
      exact hf (List.isPrefixOf_iff_prefix.mp hp)
    cases ho : f.openFails with
    | true => simp [ho]
    | false => simp [ho, slipCheck, hpre]
  · simp [hf]
  · cases ho : f.openFails with
    | true => simp [ho]
    | false =>
      cases hs : slipCheck dest f.name with
      | false => simp [ho, hs]
      | true => simp [ho, hs, hd, hw]

lemma unzipLoop_err_of_fail (dest : GoPath) (f : ZipEntry)
    (hf : ¬ (cleanComps dest <+: joinPath dest f.name) ∨ f.openFails = true ∨
          (f.entryIsDir = false ∧ f.writeFails = true)) :
    ∀ (entries : List ZipEntry) (fs : FS), f ∈ entries →
      (unzipLoop dest fs entries).2 ≠ none := by
  intro entries
  induction entries with
  | nil => intro fs h; cases h
  | cons g rest ih =>
    intro fs hmem
    simp only [unzipLoop]
    rcases hE : extractAndWriteFile dest fs g with ⟨fs1, oe⟩
    cases oe with
    | some e => simp
    | none =>
      rcases List.mem_cons.mp hmem with hfg | hrest
      · subst hfg
        exact absurd hE (by
          intro hEq
          exact extract_fail_ne_none dest fs f hf (by rw [hEq]))
      · exact ih fs1 hrest

lemma unzipLoop_err_not_under (dest : GoPath) :
    ∀ (entries : List ZipEntry) (fs : FS),
      (unzipLoop dest fs entries).2 ≠ none →
      ∀ x ∈ (unzipLoop dest fs entries).1, ¬ (cleanComps dest <+: x.path) := by
  intro entries
  induction entries with
  | nil => intro fs h; exact absurd rfl h
  | cons g rest ih =>
    intro fs h x hx
    simp only [unzipLoop] at h hx
    rcases hE : extractAndWriteFile dest fs g with ⟨fs1, oe⟩
    rw [hE] at h hx
    cases oe with
    | none => exact ih fs1 h x hx
    | some e =>
      have hne : (extractAndWriteFile dest fs g).2 ≠ none := by rw [hE]; simp
      have := extract_err_not_under dest fs g hne
      rw [hE] at this
      exact this x hx

/-- C1: archive extraction rejects every entry whose joined target path
falls lexically outside the cleaned destination directory, aborts the
whole extraction on such an entry or on any I/O failure, and on any
failed extraction removes all partially extracted output: the resulting
filesystem holds nothing under the destination that was not already
there before extraction started. -/
theorem unzipUpdate_rejects_traversal_and_cleans
    (srcOpenFails : Bool) (entries : List ZipEntry) (dest : GoPath) (fs : FS) :
    (∀ f ∈ entries,
        (¬ (cleanComps dest <+: joinPath dest f.name) ∨ f.openFails = true ∨
          (f.entryIsDir = false ∧ f.writeFails = true)) →
        (unzipUpdate srcOpenFails entries dest fs).2 ≠ none) ∧
    ((unzipUpdate srcOpenFails entries dest fs).2 ≠ none →
      ∀ x ∈ (unzipUpdate srcOpenFails entries dest fs).1,
        cleanComps dest <+: x.path → x ∈ fs) := by
  cases hso : srcOpenFails with
  | true =>
    constructor
    · intro f hmem hf
      simp [unzipUpdate]
    · intro _ x hx _
      simpa [unzipUpdate] using hx
  | false =>
    constructor
    · intro f hmem hf
      simp only [unzipUpdate, Bool.false_eq_true, if_false]
      exact unzipLoop_err_of_fail dest f hf entries (mkdirAll dest fs) hmem
    · intro herr x hx hpre
      simp only [unzipUpdate, Bool.false_eq_true, if_false] at herr hx
      exact absurd hpre (unzipLoop_err_not_under dest entries (mkdirAll dest fs) herr x hx)

/-- Witness for C1 at a concrete archive: an entry named
`../../evil.exe` extracted to destination `tmp/u` makes the extraction
fail, and a fellow entry `a.txt` that would have been written is not on
disk afterwards. -/
theorem unzipUpdate_rejects_traversal_and_cleans_witness :
    (unzipUpdate false
        [⟨["a.txt"], false, false, false⟩, ⟨["..", "..", "evil.exe"], false, false, false⟩]
        ["tmp", "u"] [⟨["tmp"], true⟩]).2 ≠ none ∧
    (unzipUpdate false
        [⟨["a.txt"], false, false, false⟩, ⟨["..", "..", "evil.exe"], false, false, false⟩]
        ["tmp", "u"] [⟨["tmp"], true⟩]).1 = [⟨["tmp"], true⟩] := by
  have h := unzipUpdate_rejects_traversal_and_cleans false
    [⟨["a.txt"], false, false, false⟩, ⟨["..", "..", "evil.exe"], false, false, false⟩]
    ["tmp", "u"] [⟨["tmp"], true⟩]
  exact ⟨h.1 ⟨["..", "..", "evil.exe"], false, false, false⟩ (by decide)
    (Or.inl (by decide)), by decide⟩

/-! ### Installer discovery claims -/

/-- C4: for a directory payload with no configured installer path,
discovery scans only the immediate children: when none of them has a
recognized extension, discovery fails with the not-found error (the
hypotheses say nothing about deeper levels, so this holds even when a
recognized file exists in a nested subdirectory). -/
theorem findInstaller_one_level_only
    (cfg : Config) (archive : List ZipEntry) (archiveOpenFails : Bool)
    (fs : FS) (src : GoPath) (d : FsEntry)
    (hzip : pathExt (src.getLastD "") ≠ ".zip")
    (hstat : statFs src fs = some d) (hdir : d.isDir = true)
    (hpath : cfg.installerPath = [])
    (hscan : ∀ nm ∈ readDir src fs, installerExtensions.contains (pathExt nm) = false) :
    (findInstaller cfg archive archiveOpenFails fs src).2 =
      .error "could not find a file that resembles an installer" := by
  have hfind : (readDir src fs).find?
      (fun nm => installerExtensions.contains (pathExt nm)) = none :=
    List.find?_eq_none.mpr (fun nm hnm => by simpa using hscan nm hnm)
  simp only [findInstaller, if_neg hzip]
  rw [hstat]
  simp only [hdir, hpath, if_true]
  rw [if_neg (show ¬(([] : GoPath) ≠ []) from fun h => h rfl), hfind]

/-- Witness for C4: a directory `d` whose only top-level child is the
subdirectory `sub`, with an installer-like `d/sub/app.exe` nested one
level deeper, is still rejected with the not-found error. -/
theorem findInstaller_one_level_only_witness :
    (findInstaller ⟨"http://example.com/u.zip", "", [], [], "", "", false, false⟩ [] false
        [⟨["d"], true⟩, ⟨["d", "sub"], true⟩, ⟨["d", "sub", "app.exe"], false⟩] ["d"]).2 =
      .error "could not find a file that resembles an installer" ∧
    FsEntry.mk ["d", "sub", "app.exe"] false ∈
      [FsEntry.mk ["d"] true, FsEntry.mk ["d", "sub"] true,
        FsEntry.mk ["d", "sub", "app.exe"] false] := by
  exact ⟨findInstaller_one_level_only _ [] false _ ["d"] ⟨["d"], true⟩
    (by decide) (by decide) (by decide) rfl (by decide), by decide⟩

/-- C5: for a directory payload with no configured installer path whose
immediate children include an entry with a recognized extension,
discovery returns the first such entry of the directory listing, joined
under the directory. -/
theorem findInstaller_first_listed_match
    (cfg : Config) (archive : List ZipEntry) (archiveOpenFails : Bool)
    (fs : FS) (src : GoPath) (d : FsEntry) (nm : String)
    (hzip : pathExt (src.getLastD "") ≠ ".zip")
    (hstat : statFs src fs = some d) (hdir : d.isDir = true)
    (hpath : cfg.installerPath = [])
    (hfind : (readDir src fs).find?
      (fun nm => installerExtensions.contains (pathExt nm)) = some nm) :
    (findInstaller cfg archive archiveOpenFails fs src).2 =
      .ok (joinPath src [nm], src) := by
  simp only [findInstaller, if_neg hzip]
  rw [hstat]
  simp only [hdir, hpath, if_true]
  rw [if_neg (show ¬(([] : GoPath) ≠ []) from fun h => h rfl), hfind]

/-- Witness for C5: a directory with top-level `setup.exe` and
`README.md` yields `d/setup.exe` (with `README.md` first in the sorted
listing but skipped). -/
theorem findInstaller_first_listed_match_witness :
    (findInstaller ⟨"http://example.com/u.zip", "", [], [], "", "", false, false⟩ [] false
        [⟨["d"], true⟩, ⟨["d", "setup.exe"], false⟩, ⟨["d", "README.md"], false⟩] ["d"]).2 =
      .ok (["d", "setup.exe"], ["d"]) := by
  exact (findInstaller_first_listed_match _ [] false _ ["d"] ⟨["d"], true⟩ "setup.exe"
    (by decide) (by decide) (by decide) rfl (by decide)).trans (by decide)

/-! ### Change detection claim -/

/-- C7: when `force_install` is set the change detector reports that an
update is needed, whatever the cached record and whatever the outcome of
the metadata probe. -/
theorem updateHasChanged_force_install
    (cfg : Config) (cache : CacheDetails) (head : Option HeadResult)
    (h : cfg.forceInstall = true) :
    updateHasChanged cfg cache head = true := by
  simp [updateHasChanged, h]

/-- Witness for C7: even with a fully matching, already-installed cache
record and a successful probe, the force flag wins. -/
theorem updateHasChanged_force_install_witness :
    updateHasChanged ⟨"http://example.com/u.zip", "", [], [], "", "", false, true⟩
      ⟨"http://example.com/u.zip", 10, "etag1", true⟩ (some ⟨10, "etag1"⟩) = true := by
  exact updateHasChanged_force_install _ _ _ rfl

/-! ### Uninstall command construction claim -/

/-- C9: in the revisions that build the uninstall invocation as
`exec.Command("cmd", "/C", strings.ReplaceAll(script, quote, empty))`,
the executed argument vector carries the registry-supplied string with
every double quote removed, and it equals the stored string exactly
when and only when that string contains no double quote. -/
theorem uninstallExecArgs_strips_quotes (script : String) :
    uninstallExecArgs script = ["cmd", "/C", stripQuotes script] ∧
    (uninstallExecArgs script = ["cmd", "/C", script] ↔ dquote ∉ script.data) := by
  refine ⟨rfl, ?_⟩
  unfold uninstallExecArgs stripQuotes
  constructor
  · intro h
    have h3 : script.data.filter (fun c => c ≠ dquote) = script.data := by
      have := (List.cons_eq_cons.mp ((List.cons_eq_cons.mp
        ((List.cons_eq_cons.mp h).2)).2)).1
      exact congrArg String.data this
    intro hq
    have := (List.filter_eq_self.mp h3) dquote hq
    simp at this
  · intro hq
    have h3 : script.data.filter (fun c => c ≠ dquote) = script.data :=
      List.filter_eq_self.mpr (fun c hc => by
        simp only [decide_eq_true_eq]
        intro hcq
        exact hq (hcq ▸ hc))
    have : (⟨script.data.filter (fun c => c ≠ dquote)⟩ : String) = script := by
      cases script with
      | mk data => exact congrArg String.mk h3
    rw [this]

/-- Witness for C9: a quote-free command is passed through verbatim,
while a quoted one is not. -/
theorem uninstallExecArgs_strips_quotes_witness :
    uninstallExecArgs "run.exe /S" = ["cmd", "/C", "run.exe /S"] := by
  exact (uninstallExecArgs_strips_quotes "run.exe /S").2.mpr (by decide)

/-! ### Uninstall matcher lemmas -/

lemma procSubkey_trace_mono (cfg : Config) (exec : String → Option String)
    (st : ScanState) (sk : RegSubkey) :
    ∀ x ∈ st.trace, x ∈ (procSubkey cfg exec st sk).trace := by
  intro x hx
  unfold procSubkey
  split
  · exact hx
  · rcases hk : getStringValue sk cfg.registryLookupKey with _ | v
    · exact hx
    · dsimp only
      split
      · rcases hs : resolveUninstallScript sk with _ | script
        · exact hx
        · dsimp only
          rcases he : exec (buildUninstallCommand script) with _ | out
          · exact List.mem_append_left _ hx
          · exact List.mem_append_left _ hx
      · exact hx

lemma procSubkey_trace_of_match (cfg : Config) (exec : String → Option String)
    (st : ScanState) (sk : RegSubkey) (script : String)
    (ho : sk.openFails = false)
    (hk : getStringValue sk cfg.registryLookupKey = some cfg.registryLookupValue)
    (hs : resolveUninstallScript sk = some script) :
    buildUninstallCommand script ∈ (procSubkey cfg exec st sk).trace := by
  unfold procSubkey
  rw [ho, hk, hs]
  simp only [Bool.false_eq_true, if_false, if_pos rfl]
  rcases he : exec (buildUninstallCommand script) with _ | out
  · exact List.mem_append_right _ (List.mem_singleton.mpr rfl)
  · exact List.mem_append_right _ (List.mem_singleton.mpr rfl)

lemma subkeysFoldl_trace_mono (cfg : Config) (exec : String → Option String) :
    ∀ (sks : List RegSubkey) (st : ScanState),
      ∀ x ∈ st.trace, x ∈ (sks.foldl (procSubkey cfg exec) st).trace := by
  intro sks
  induction sks with
  | nil => intro st x hx; exact hx
  | cons g rest ih =>
    intro st x hx
    exact ih (procSubkey cfg exec st g) x (procSubkey_trace_mono cfg exec st g x hx)

lemma subkeysFoldl_trace_of_match (cfg : Config) (exec : String → Option String)
    (sk : RegSubkey) (script : String)
    (ho : sk.openFails = false)
    (hk : getStringValue sk cfg.registryLookupKey = some cfg.registryLookupValue)
    (hs : resolveUninstallScript sk = some script) :
    ∀ (sks : List RegSubkey) (st : ScanState), sk ∈ sks →
      buildUninstallCommand script ∈ (sks.foldl (procSubkey cfg exec) st).trace := by
  intro sks
  induction sks with
  | nil => intro st h; cases h
  | cons g rest ih =>
    intro st hmem
    rcases List.mem_cons.mp hmem with hg | hrest
    · subst hg
      exact subkeysFoldl_trace_mono cfg exec rest (procSubkey cfg exec st sk) _
        (procSubkey_trace_of_match cfg exec st sk script ho hk hs)
    · exact ih (procSubkey cfg exec st g) hrest

lemma processRoot_trace_mono (cfg : Config) (exec : String → Option String)
    (st : ScanState) (root : RegRoot) :
    ∀ x ∈ st.trace, x ∈ (processRoot cfg exec st root).trace := by
  intro x hx
  unfold processRoot
  split
  · exact hx
  · split
    · exact hx
    · exact subkeysFoldl_trace_mono cfg exec root.subkeys st x hx

lemma processRoot_trace_of_match (cfg : Config) (exec : String → Option String)
    (st : ScanState) (root : RegRoot) (sk : RegSubkey) (script : String)
    (hro : root.openFails = false) (hrs : root.readSubkeysFails = false)
    (hmem : sk ∈ root.subkeys)
    (ho : sk.openFails = false)
    (hk : getStringValue sk cfg.registryLookupKey = some cfg.registryLookupValue)
    (hs : resolveUninstallScript sk = some script) :
    buildUninstallCommand script ∈ (processRoot cfg exec st root).trace := by
  unfold processRoot
  rw [hro, hrs]
  simp only [Bool.false_eq_true, if_false]
  exact subkeysFoldl_trace_of_match cfg exec sk script ho hk hs root.subkeys st hmem

lemma keysFoldl_trace_mono (cfg : Config) (reg : String → RegRoot)
    (exec : String → Option String) :
    ∀ (keys : List String) (st : ScanState),
      ∀ x ∈ st.trace,
        x ∈ (keys.foldl (fun st key => processRoot cfg exec st (reg key)) st).trace := by
  intro keys
  induction keys with
  | nil => intro st x hx; exact hx
  | cons k rest ih =>
    intro st x hx
    exact ih _ x (processRoot_trace_mono cfg exec st (reg k) x hx)

lemma keysFoldl_trace_of_match (cfg : Config) (reg : String → RegRoot)
    (exec : String → Option String) (key : String) (sk : RegSubkey) (script : String)
    (hro : (reg key).openFails = false) (hrs : (reg key).readSubkeysFails = false)
    (hmem : sk ∈ (reg key).subkeys)
    (ho : sk.openFails = false)
    (hk : getStringValue sk cfg.registryLookupKey = some cfg.registryLookupValue)
    (hs : resolveUninstallScript sk = some script) :
    ∀ (keys : List String) (st : ScanState), key ∈ keys →
      buildUninstallCommand script ∈
        (keys.foldl (fun st key => processRoot cfg exec st (reg key)) st).trace := by
  intro keys
  induction keys with
  | nil => intro st h; cases h
  | cons k rest ih =>
    intro st hkmem
    rcases List.mem_cons.mp hkmem with hk1 | hrest
    · subst hk1
      exact keysFoldl_trace_mono cfg reg exec rest _ _
        (processRoot_trace_of_match cfg exec st (reg key) sk script hro hrs hmem ho hk hs)
    · exact ih _ hrest

/-! ### Uninstall matcher claims -/

/-- C2: with both lookup fields non-blank, every subkey of either
uninstall root that matches the lookup key/value and yields a command
string has that command executed (all matches, not only the first); the
step reports success whenever at least one uninstall succeeded, reports
the aggregated error exactly when none succeeded and a failure was
recorded, and reports benign success when nothing matched at all. -/
theorem uninstall_runs_all_matches (cfg : Config) (reg : String → RegRoot)
    (exec : String → Option String)
    (hk : (trimSpace cfg.registryLookupKey).length ≠ 0)
    (hv : (trimSpace cfg.registryLookupValue).length ≠ 0) :
    (∀ key ∈ uninstallKeys, (reg key).openFails = false →
      (reg key).readSubkeysFails = false →
      ∀ sk ∈ (reg key).subkeys, sk.openFails = false →
        getStringValue sk cfg.registryLookupKey = some cfg.registryLookupValue →
        ∀ script, resolveUninstallScript sk = some script →
          buildUninstallCommand script ∈ (uninstallScan cfg reg exec).trace) ∧
    (0 < (uninstallScan cfg reg exec).uninstallCount →
      uninstallExistingInstallation cfg reg exec = none) ∧
    ((uninstallScan cfg reg exec).uninstallCount = 0 →
      (uninstallScan cfg reg exec).errs ≠ [] →
      uninstallExistingInstallation cfg reg exec ≠ none) ∧
    ((uninstallScan cfg reg exec).uninstallCount = 0 →
      (uninstallScan cfg reg exec).errs = [] →
      uninstallExistingInstallation cfg reg exec = none) := by
  refine ⟨?_, ?_, ?_, ?_⟩
  · intro key hkey hro hrs sk hsk ho hmatch script hs
    exact keysFoldl_trace_of_match cfg reg exec key sk script hro hrs hsk ho hmatch hs
      uninstallKeys ⟨0, [], []⟩ hkey
  · intro hc
    simp only [uninstallExistingInstallation, if_neg hk, if_neg hv]
    rw [if_pos hc]
  · intro hc he
    simp only [uninstallExistingInstallation, if_neg hk, if_neg hv]
    rw [if_neg (by omega), if_pos (by
      cases hE : (uninstallScan cfg reg exec).errs with
      | nil => exact absurd hE he
      | cons a l => simp [hE])]
    simp
  · intro hc he
    simp only [uninstallExistingInstallation, if_neg hk, if_neg hv]
    rw [if_neg (by omega), if_neg (by simp [he])]

/-- A registry fixture: one root holding two matching subkeys (one whose
uninstall command fails, one whose quiet command succeeds), one
non-matching subkey and one matching subkey with no command string. -/
def regFixture : String → RegRoot := fun k =>
  if k = "SOFTWARE\\Microsoft\\Windows\\CurrentVersion\\Uninstall" then
    ⟨false, false,
      [⟨"k1", false, [("DisplayName", "App"), ("UninstallString", "unA.exe")]⟩,
       ⟨"k3", false, [("DisplayName", "Other")]⟩,
       ⟨"k2", false, [("DisplayName", "App"), ("QuietUninstallString", "unB.exe")]⟩,
       ⟨"k4", false, [("DisplayName", "App")]⟩]⟩
  else ⟨false, false, []⟩

/-- A lookup configuration matching `regFixture`. -/
def cfgLookup : Config :=
  ⟨"http://example.com/u.zip", "", [], [], "DisplayName", "App", false, false⟩

/-- An execution oracle under which only `unB.exe` succeeds. -/
def execFixture : String → Option String :=
  fun c => if c = "cmd /C unB.exe" then none else some "exit status 1"

/-- Witness for C2: with one failing and one succeeding match the failing
match's command was still executed and the step reports success. -/
theorem uninstall_runs_all_matches_witness :
    uninstallExistingInstallation cfgLookup regFixture execFixture = none ∧
    "cmd /C unA.exe" ∈ (uninstallScan cfgLookup regFixture execFixture).trace := by
  have h := uninstall_runs_all_matches cfgLookup regFixture execFixture
    (by decide) (by decide)
  refine ⟨h.2.1 (by decide), ?_⟩
  have := h.1 "SOFTWARE\\Microsoft\\Windows\\CurrentVersion\\Uninstall" (by decide)
    rfl rfl ⟨"k1", false, [("DisplayName", "App"), ("UninstallString", "unA.exe")]⟩
    (by decide) rfl (by decide) "unA.exe" (by decide)
  simpa using this

/-- C6: a matching subkey's command string prefers
`QuietUninstallString`, falls back to `UninstallString` when the quiet
value is unreadable or blank, and when neither resolves the match is
recorded as a failure (no success counted) while enumeration of the
remaining subkeys continues. -/
theorem uninstall_command_preference (cfg : Config) (exec : String → Option String)
    (sk : RegSubkey) :
    (∀ q, getStringValue sk "QuietUninstallString" = some q →
      (trimSpace q).length ≠ 0 → resolveUninstallScript sk = some q) ∧
    (getStringValue sk "QuietUninstallString" = none →
      resolveUninstallScript sk = getStringValue sk "UninstallString") ∧
    (∀ q, getStringValue sk "QuietUninstallString" = some q →
      (trimSpace q).length = 0 →
      resolveUninstallScript sk = getStringValue sk "UninstallString") ∧
    (∀ st, sk.openFails = false →
      getStringValue sk cfg.registryLookupKey = some cfg.registryLookupValue →
      resolveUninstallScript sk = none →
      procSubkey cfg exec st sk =
        { st with errs := st.errs ++ ["could not find uninstall command"] }) ∧
    (∀ (st : ScanState) (pre post : List RegSubkey),
      resolveUninstallScript sk = none →
      ∀ sk2 ∈ post, sk2.openFails = false →
        getStringValue sk2 cfg.registryLookupKey = some cfg.registryLookupValue →
        ∀ script2, resolveUninstallScript sk2 = some script2 →
          buildUninstallCommand script2 ∈
            ((pre ++ sk :: post).foldl (procSubkey cfg exec) st).trace) := by
  refine ⟨?_, ?_, ?_, ?_, ?_⟩
  · intro q hq hnb
    unfold resolveUninstallScript
    rw [hq]
    exact if_neg hnb
  · intro hq
    unfold resolveUninstallScript
    rw [hq]
  · intro q hq hb
    unfold resolveUninstallScript
    rw [hq]
    exact if_pos hb
  · intro st ho hmatch hres
    unfold procSubkey
    rw [ho, hmatch, hres]
    simp
  · intro st pre post _ sk2 hmem ho2 hmatch2 script2 hs2
    exact subkeysFoldl_trace_of_match cfg exec sk2 script2 ho2 hmatch2 hs2
      (pre ++ sk :: post) st (by simp [hmem])

/-- Witness for C6: a blank quiet string falls back to the standard
uninstall string, and a matching subkey with no command at all is
recorded as a failure while a later match still gets its command run. -/
theorem uninstall_command_preference_witness :
    resolveUninstallScript ⟨"kq", false,
      [("QuietUninstallString", "  "), ("UninstallString", "unQ.exe")]⟩ = some "unQ.exe" ∧
    procSubkey cfgLookup execFixture ⟨0, [], []⟩
        ⟨"k4", false, [("DisplayName", "App")]⟩ =
      ⟨0, ["could not find uninstall command"], []⟩ ∧
    "cmd /C unB.exe" ∈
      (([(⟨"k4", false, [("DisplayName", "App")]⟩ : RegSubkey)] ++
          (⟨"k4", false, [("DisplayName", "App")]⟩ : RegSubkey) ::
            [(⟨"k2", false, [("DisplayName", "App"),
              ("QuietUninstallString", "unB.exe")]⟩ : RegSubkey)]).foldl
        (procSubkey cfgLookup execFixture) ⟨0, [], []⟩).trace := by
  refine ⟨?_, ?_, ?_⟩
  · exact ((uninstall_command_preference cfgLookup execFixture _).2.2.1 "  "
      (by decide) (by decide)).trans (by decide)
  · exact ((uninstall_command_preference cfgLookup execFixture _).2.2.2.1 ⟨0, [], []⟩
      rfl (by decide) (by decide)).trans (by decide)
  · have := (uninstall_command_preference cfgLookup execFixture
      ⟨"k4", false, [("DisplayName", "App")]⟩).2.2.2.2 ⟨0, [], []⟩
      [⟨"k4", false, [("DisplayName", "App")]⟩]
      [⟨"k2", false, [("DisplayName", "App"), ("QuietUninstallString", "unB.exe")]⟩]
      (by decide)
      ⟨"k2", false, [("DisplayName", "App"), ("QuietUninstallString", "unB.exe")]⟩
      (by decide) rfl (by decide) "unB.exe" (by decide)
    simpa using this

/-! ### Orchestration claims -/

lemma mem_removeFile {p : GoPath} {fs : FS} {x : FsEntry} (h : x ∈ removeFile p fs) :
    x ∈ fs ∧ x.path ≠ cleanComps p := by
  unfold removeFile at h
  rw [List.mem_filter] at h
  exact ⟨h.1, by simpa using h.2⟩

lemma mem_cleanupLocated {u installer dir : GoPath} {fs : FS} {x : FsEntry}
    (h : x ∈ cleanupLocated u installer dir fs) :
    x.path ≠ cleanComps u ∧ (dir ≠ [] → ¬ (cleanComps dir <+: x.path)) := by
  unfold cleanupLocated at h
  have h1 := mem_removeFile h
  refine ⟨h1.2, fun hdir => ?_⟩
  rw [if_pos hdir] at h1
  exact (mem_removeAll h1.1).2

lemma DoCommand_fs_err (env : Env) (cmd : Option (List (String × String)))
    (u : GoPath) (e : String)
    (hd : env.downloadResult = .ok u)
    (hf : (findInstaller env.cfg env.archive env.archiveOpenFails (addFile u env.fs) u).2 =
      .error e) :
    (DoCommand env cmd).fs = removeFile u
      (findInstaller env.cfg env.archive env.archiveOpenFails (addFile u env.fs) u).1 := by
  unfold DoCommand
  rw [hd]
  dsimp only
  rw [hf]

lemma DoCommand_fs_ok (env : Env) (cmd : Option (List (String × String)))
    (u installer dir : GoPath)
    (hd : env.downloadResult = .ok u)
    (hf : (findInstaller env.cfg env.archive env.archiveOpenFails (addFile u env.fs) u).2 =
      .ok (installer, dir)) :
    (DoCommand env cmd).fs = cleanupLocated u installer dir
      (findInstaller env.cfg env.archive env.archiveOpenFails (addFile u env.fs) u).1 := by
  unfold DoCommand
  rw [hd]
  dsimp only
  split
  · rename_i e1 heq
    rw [hf] at heq
    exact Except.noConfusion heq
  · rename_i installer1 dir1 heq
    rw [hf] at heq
    injection heq with h2
    injection h2 with h3 h4
    subst h3
    subst h4
    split
    · split
      · rfl
      · split <;> rfl
    · split <;> rfl

lemma DoCommand_ok_uninstall_err (env : Env) (cmd : Option (List (String × String)))
    (u installer dir : GoPath) (e : String)
    (hd : env.downloadResult = .ok u)
    (hf : (findInstaller env.cfg env.archive env.archiveOpenFails (addFile u env.fs) u).2 =
      .ok (installer, dir))
    (hu : uninstallExistingInstallation env.cfg env.reg env.execShell = some e) :
    DoCommand env cmd =
      if env.cfg.abortOnUninstallErrors = true then
        ⟨cleanupLocated u installer dir
          (findInstaller env.cfg env.archive env.archiveOpenFails (addFile u env.fs) u).1,
          false, none, some e⟩
      else
        match installUpdate env.cfg env.execInstall installer with
        | some ie =>
          ⟨cleanupLocated u installer dir
            (findInstaller env.cfg env.archive env.archiveOpenFails (addFile u env.fs) u).1,
            true, none, some ie⟩
        | none =>
          ⟨cleanupLocated u installer dir
            (findInstaller env.cfg env.archive env.archiveOpenFails (addFile u env.fs) u).1,
            true, none, none⟩ := by
  unfold DoCommand
  rw [hd]
  dsimp only
  split
  · rename_i e1 heq
    rw [hf] at heq
    exact Except.noConfusion heq
  · rename_i installer1 dir1 heq
    rw [hf] at heq
    injection heq with h2
    injection h2 with h3 h4
    subst h3
    subst h4
    split
    · rename_i e2 hueq
      rw [hu] at hueq
      injection hueq with h5
      subst h5
      rfl
    · rename_i hueq
      rw [hu] at hueq
      exact Option.noConfusion hueq

/-- C3: when the uninstall step fails, the install step still runs if
`abort_on_uninstall_errors` is false (its zero-value default), while
with the flag set the run fails with the uninstall error before install
is invoked. -/
theorem DoCommand_abort_on_uninstall_errors
    (env : Env) (cmd : Option (List (String × String)))
    (u installer dir : GoPath) (e : String)
    (hd : env.downloadResult = .ok u)
    (hf : (findInstaller env.cfg env.archive env.archiveOpenFails (addFile u env.fs) u).2 =
      .ok (installer, dir))
    (hu : uninstallExistingInstallation env.cfg env.reg env.execShell = some e) :
    (env.cfg.abortOnUninstallErrors = false → (DoCommand env cmd).installRan = true) ∧
    (env.cfg.abortOnUninstallErrors = true →
      (DoCommand env cmd).installRan = false ∧ (DoCommand env cmd).retErr = some e) := by
  have hEq := DoCommand_ok_uninstall_err env cmd u installer dir e hd hf hu
  constructor
  · intro habort
    rw [hEq, habort]
    rcases installUpdate env.cfg env.execInstall installer with _ | ie <;> rfl
  · intro habort
    rw [hEq, habort]
    exact ⟨rfl, rfl⟩

/-- Fixture for C3: a run whose zip payload holds `setup.exe`, whose
registry has one matching entry whose uninstall command fails, and whose
installer executes successfully. -/
def envUninstallFails (abort : Bool) : Env :=
  { cfg := ⟨"http://example.com/u.zip", "", [], [], "DisplayName", "App", abort, false⟩
    fs := []
    downloadResult := .ok ["u.zip"]
    archive := [⟨["setup.exe"], false, false, false⟩]
    archiveOpenFails := false
    reg := fun k =>
      if k = "SOFTWARE\\Microsoft\\Windows\\CurrentVersion\\Uninstall" then
        ⟨false, false, [⟨"k1", false, [("DisplayName", "App"), ("UninstallString", "unA.exe")]⟩]⟩
      else ⟨false, false, []⟩
    execShell := fun _ => some "exit status 1"
    execInstall := fun _ _ => none }

/-- Witness for C3 at the concrete fixture: with the flag unset the
install step runs; with it set the run stops with the uninstall error
and install never runs. -/
theorem DoCommand_abort_on_uninstall_errors_witness :
    (DoCommand (envUninstallFails false) none).installRan = true ∧
    (DoCommand (envUninstallFails true) none).installRan = false := by
  constructor
  · exact (DoCommand_abort_on_uninstall_errors (envUninstallFails false) none
      ["u.zip"] ["u", "setup.exe"] ["u"]
      ("encountered errors uninstalling programs: " ++
        "encountered error uninstalling program: exit status 1")
      rfl (by decide) (by decide)).1 rfl
  · exact ((DoCommand_abort_on_uninstall_errors (envUninstallFails true) none
      ["u.zip"] ["u", "setup.exe"] ["u"]
      ("encountered errors uninstalling programs: " ++
        "encountered error uninstalling program: exit status 1")
      rfl (by decide) (by decide)).2 rfl).1

/-- Fixture for C8: a run whose zip payload extracts cleanly but holds
no installer-like file at the top level, so the locate stage fails with
the heuristic not-found error. -/
def envLocateMiss : Env :=
  { cfg := ⟨"http://example.com/u.zip", "", [], [], "", "", false, false⟩
    fs := []
    downloadResult := .ok ["u.zip"]
    archive := [⟨["README.md"], false, false, false⟩]
    archiveOpenFails := false
    reg := fun _ => ⟨false, false, []⟩
    execShell := fun _ => none
    execInstall := fun _ _ => none }

/-- C8 counterexample: a run that reaches the locate stage and exits
through the heuristic "no installer-like file" failure removes the
downloaded `u.zip` but leaves the freshly extracted directory `u` (and
its content) on disk, so not every exit path from the extracting stage
onward cleans up the extracted directory. -/
theorem DoCommand_locate_failure_leaves_extracted_dir :
    (DoCommand envLocateMiss none).retErr =
      some "could not find a file that resembles an installer" ∧
    (DoCommand envLocateMiss none).fs =
      [⟨["u"], true⟩, ⟨["u", "README.md"], false⟩] := by
  exact ⟨rfl, by decide⟩

/-- C8 (amended): every exit path after a successful download removes
the downloaded file, and every exit path after the installer was
located in a directory also removes that directory's subtree; but on
the locate-failure exit where the heuristic scan finds no installer the
extracted directory is not removed (only the downloaded file is), as
the counterexample shows. -/
theorem DoCommand_cleanup_after_locate
    (env : Env) (cmd : Option (List (String × String))) (u : GoPath)
    (hd : env.downloadResult = .ok u) :
    (∀ x ∈ (DoCommand env cmd).fs, x.path ≠ cleanComps u) ∧
    (∀ installer dir,
      (findInstaller env.cfg env.archive env.archiveOpenFails (addFile u env.fs) u).2 =
        .ok (installer, dir) → dir ≠ [] →
      ∀ x ∈ (DoCommand env cmd).fs, ¬ (cleanComps dir <+: x.path)) := by
  constructor
  · intro x hx
    rcases hfr : (findInstaller env.cfg env.archive env.archiveOpenFails
        (addFile u env.fs) u).2 with e | p
    · rw [DoCommand_fs_err env cmd u e hd hfr] at hx
      exact (mem_removeFile hx).2
    · obtain ⟨installer, dir⟩ := p
      rw [DoCommand_fs_ok env cmd u installer dir hd hfr] at hx
      exact (mem_cleanupLocated hx).1
  · intro installer dir hok hdir x hx
    rw [DoCommand_fs_ok env cmd u installer dir hd hok] at hx
    exact (mem_cleanupLocated hx).2 hdir

/-- Fixture for the amended C8: the same run as `envLocateMiss` but with
`setup.exe` inside the archive, so location succeeds and the run
completes. -/
def envLocateHit : Env :=
  { cfg := ⟨"http://example.com/u.zip", "", [], [], "", "", false, false⟩
    fs := []
    downloadResult := .ok ["u.zip"]
    archive := [⟨["setup.exe"], false, false, false⟩]
    archiveOpenFails := false
    reg := fun _ => ⟨false, false, []⟩
    execShell := fun _ => none
    execInstall := fun _ _ => none }

/-- Witness for the amended C8: after a completed run neither the
downloaded `u.zip` nor the extracted directory `u` is on disk. -/
theorem DoCommand_cleanup_after_locate_witness :
    FsEntry.mk ["u.zip"] false ∉ (DoCommand envLocateHit none).fs ∧
    FsEntry.mk ["u"] true ∉ (DoCommand envLocateHit none).fs := by
  have h := DoCommand_cleanup_after_locate envLocateHit none ["u.zip"] rfl
  constructor
  · intro hmem
    exact h.1 _ hmem (by decide)
  · intro hmem
    exact h.2 ["u", "setup.exe"] ["u"] (by decide) (by decide) _ hmem (by decide)

/-- C10: the trigger operation ignores its command-map argument — any
two argument maps give identical runs — and the returned result map is
`nil` on every path, in particular on success. -/
theorem DoCommand_ignores_command_map (env : Env) :
    (∀ c₁ c₂, DoCommand env c₁ = DoCommand env c₂) ∧
    (∀ c, (DoCommand env c).retMap = none) := by
  refine ⟨fun c₁ c₂ => rfl, fun c => ?_⟩
  unfold DoCommand
  split
  · rfl
  · dsimp only
    split
    · rfl
    · split
      · split
        · rfl
        · split <;> rfl
      · split <;> rfl

end WinUpdater
